import Mathlib

/-!
Verification of the SELF-chain PoAI consensus core against its
natural-language specification.

The Rust sources are shallowly embedded: machine integers (u32/u64/usize)
become Nat (with explicit wraparound where the source wraps), fallible
functions return Except, and stateful methods become explicit
state-passing functions.  Floating-point arithmetic in the source
(f64 in the transaction selector) is modelled as exact arithmetic:
decimal literals are read as the rationals they denote and operations
are exact.  All definitions are executable.
-/

-- Equality of Except values is decidable when both component types
-- have decidable equality (used to evaluate fallible operations).
deriving instance DecidableEq for Except

namespace SelfChain

/-! ## Blockchain core types (src/blockchain/mod.rs) -/

/-- Legacy transaction shape from src/blockchain/mod.rs.  The optional
typed payload field is omitted: none of the embedded operations
(calculate_size, hash, selection, color accounting) consults it. -/
structure Transaction where
  id : String
  sender : String
  receiver : String
  amount : Nat
  signature : String
  timestamp : Nat
  deriving Repr, DecidableEq

/-- Transaction.calculate_size: sum of the lengths of the string fields
and of the decimal renderings of amount and timestamp. -/
def Transaction.calculateSize (tx : Transaction) : Nat :=
  tx.id.length + tx.sender.length + tx.receiver.length
    + (Nat.repr tx.amount).length + tx.signature.length
    + (Nat.repr tx.timestamp).length

/-! ## Transaction selector (src/consensus/transaction_selector.rs) -/

/-- TransactionSelectorConfig. -/
structure TransactionSelectorConfig where
  maxTransactionsPerBlock : Nat
  targetBlockSize : Nat
  totalPointsSpent : Nat
  minTransactionFee : Nat
  deriving Repr, DecidableEq

/-- TransactionSelectorConfig::default. -/
def TransactionSelectorConfig.default : TransactionSelectorConfig :=
  { maxTransactionsPerBlock := 1000
    targetBlockSize := 1000000
    totalPointsSpent := 0
    minTransactionFee := 1 }

/-- TransactionWithMetadata.  The priority_score field is an f64 that is
initialised to 0.0 and never used by the embedded operations; it is
modelled as a rational. -/
structure TransactionWithMetadata where
  transaction : Transaction
  pointPrice : Nat
  pointData : Nat
  timestamp : Nat
  priorityScore : ℚ
  deriving Repr, DecidableEq

/-- calculate_point_price: base fee of one point per 100 bytes (at least
one point) plus one point per million units of amount. -/
def calculatePointPrice (tx : Transaction) : Nat :=
  max (tx.calculateSize / 100) 1 + tx.amount / 1000000

/-- TransactionWithMetadata::from_transaction. -/
def TransactionWithMetadata.fromTransaction (tx : Transaction) :
    TransactionWithMetadata :=
  { transaction := tx
    pointPrice := calculatePointPrice tx
    pointData := tx.calculateSize
    timestamp := tx.timestamp
    priorityScore := 0 }

/-- SelectedTransactions. -/
structure SelectedTransactions where
  highPrice : List TransactionWithMetadata
  lowPrice : List TransactionWithMetadata
  avgPrice : List TransactionWithMetadata
  oldest : List TransactionWithMetadata
  avgPointPrice : Nat
  totalSelected : Nat
  deriving Repr, DecidableEq

/-- SelectedTransactions::empty. -/
def SelectedTransactions.empty : SelectedTransactions :=
  { highPrice := [], lowPrice := [], avgPrice := [], oldest := []
    avgPointPrice := 0, totalSelected := 0 }

/-- SelectedTransactions::all_transactions (flattened in bucket order). -/
def SelectedTransactions.allTransactions (s : SelectedTransactions) :
    List TransactionWithMetadata :=
  s.highPrice ++ s.lowPrice ++ s.avgPrice ++ s.oldest

/-- Insert x into an already sorted list, after every element it does not
strictly precede.  Together with a left fold this gives a stable sort,
matching the stability guarantee of Rust slice::sort_by. -/
def insertOrdered (lt : α → α → Bool) (x : α) : List α → List α
  | [] => [x]
  | y :: ys => if lt x y then x :: y :: ys else y :: insertOrdered lt x ys

/-- Stable sort: elements are inserted in their original order and each
one lands after all earlier elements with an equal key. -/
def stableSortBy (lt : α → α → Bool) (l : List α) : List α :=
  l.foldl (fun acc x => insertOrdered lt x acc) []

/-- The take_unique closure of select_transactions: walk the candidate
list, skip transactions whose id is already selected, record each newly
taken id, and stop once count transactions have been taken.  Returns the
taken transactions and the updated selected-id set (modelled as a list). -/
def takeUnique (sel : List String) (cands : List TransactionWithMetadata)
    (count : Nat) : List TransactionWithMetadata × List String :=
  match count, cands with
  | 0, _ => ([], sel)
  | _, [] => ([], sel)
  | Nat.succ c, t :: ts =>
    if sel.contains t.transaction.id then
      takeUnique sel ts (Nat.succ c)
    else
      let r := takeUnique (t.transaction.id :: sel) ts c
      (t :: r.1, r.2)

/-- Exact value of the source expression (n as f64 * (num/100 as a
decimal literal)).ceil() as usize: the ceiling of n·num/100 computed in
exact arithmetic.  For the percentages and block sizes in play the f64
computation is exact, so this is a faithful model. -/
def ceilPercent (num n : Nat) : Nat := (n * num + 99) / 100

/-- Comparator of the high-price stage: point_price descending. -/
def ltHigh (a b : TransactionWithMetadata) : Bool :=
  b.pointPrice < a.pointPrice

/-- Comparator of the low-price stage: point_price ascending. -/
def ltLow (a b : TransactionWithMetadata) : Bool :=
  a.pointPrice < b.pointPrice

/-- Comparator of the avg-price stage: absolute difference to the mean
point price ascending, ties broken by point_price ascending (the i64
casts in the source never truncate for Nat-modelled u64 values). -/
def ltAvg (avgPointPrice : Nat) (a b : TransactionWithMetadata) : Bool :=
  let da := ((a.pointPrice : ℤ) - (avgPointPrice : ℤ)).natAbs
  let db := ((b.pointPrice : ℤ) - (avgPointPrice : ℤ)).natAbs
  da < db || (da == db && a.pointPrice < b.pointPrice)

/-- Comparator of the oldest stage: timestamp ascending. -/
def ltOld (a b : TransactionWithMetadata) : Bool :=
  a.timestamp < b.timestamp

/-- TransactionSelector::select_transactions, the 20/20/50/10 algorithm:
empty mempool short-circuits to the empty selection; otherwise the four
buckets are taken in the order high, low, avg, oldest, each stage
skipping already selected ids via the shared selected-id set. -/
def selectTransactions (cfg : TransactionSelectorConfig)
    (mempool : List Transaction) : SelectedTransactions :=
  if mempool.isEmpty then SelectedTransactions.empty
  else
    let txWithMeta := mempool.map TransactionWithMetadata.fromTransaction
    let totalCount := min cfg.maxTransactionsPerBlock txWithMeta.length
    let highPriceCount := ceilPercent 20 totalCount
    let lowPriceCount := ceilPercent 20 totalCount
    let avgPriceCount := ceilPercent 50 totalCount
    let oldestCount := ceilPercent 10 totalCount
    let avgPointPrice :=
      if txWithMeta.isEmpty then 0
      else (txWithMeta.map (·.pointPrice)).sum / txWithMeta.length
    let r1 := takeUnique [] (stableSortBy ltHigh txWithMeta) highPriceCount
    let r2 := takeUnique r1.2 (stableSortBy ltLow txWithMeta) lowPriceCount
    let r3 := takeUnique r2.2 (stableSortBy (ltAvg avgPointPrice) txWithMeta)
      avgPriceCount
    let r4 := takeUnique r3.2 (stableSortBy ltOld txWithMeta) oldestCount
    { highPrice := r1.1
      lowPrice := r2.1
      avgPrice := r3.1
      oldest := r4.1
      avgPointPrice := avgPointPrice
      totalSelected := r1.1.length + r2.1.length + r3.1.length + r4.1.length }

/-- Spec-side reformulation of the selection algorithm, written from the
claim: N = min(mempool length, max_transactions_per_block), target sizes
⌈0.20·N⌉, ⌈0.20·N⌉, ⌈0.50·N⌉, ⌈0.10·N⌉ as exact Nat ceilings, selection
in the order high, low, avg, old with each stage skipping already chosen
ids, sorted by the stated keys (descending point_price; ascending
point_price; distance to the snapshot mean with point_price tiebreak;
ascending timestamp). -/
def selectSpec (cfg : TransactionSelectorConfig)
    (mempool : List Transaction) : SelectedTransactions :=
  let snapshot := mempool.map TransactionWithMetadata.fromTransaction
  let n := min mempool.length cfg.maxTransactionsPerBlock
  let meanPrice := (snapshot.map (·.pointPrice)).sum / snapshot.length
  let s1 := takeUnique [] (stableSortBy ltHigh snapshot) ((n + 4) / 5)
  let s2 := takeUnique s1.2 (stableSortBy ltLow snapshot) ((n + 4) / 5)
  let s3 := takeUnique s2.2 (stableSortBy (ltAvg meanPrice) snapshot)
    ((n + 1) / 2)
  let s4 := takeUnique s3.2 (stableSortBy ltOld snapshot) ((n + 9) / 10)
  { highPrice := s1.1
    lowPrice := s2.1
    avgPrice := s3.1
    oldest := s4.1
    avgPointPrice := meanPrice
    totalSelected := s1.1.length + s2.1.length + s3.1.length + s4.1.length }

lemma ceilPercent_twenty (n : Nat) : ceilPercent 20 n = (n + 4) / 5 := by
  unfold ceilPercent; omega

lemma ceilPercent_fifty (n : Nat) : ceilPercent 50 n = (n + 1) / 2 := by
  unfold ceilPercent; omega

lemma ceilPercent_ten (n : Nat) : ceilPercent 10 n = (n + 9) / 10 := by
  unfold ceilPercent; omega

/-- C1: select_transactions implements the claimed algorithm: N is the
min of mempool size and max_transactions_per_block, the bucket targets
are the exact ceilings ⌈0.20N⌉/⌈0.20N⌉/⌈0.50N⌉/⌈0.10N⌉, the stages run
in the order high, low, avg, old, each skipping already chosen ids, with
the claimed sort keys (high: point_price descending; low: ascending;
avg: distance to the snapshot mean ascending with point_price tiebreak;
old: timestamp ascending). -/
theorem select_transactions_matches_spec
    (cfg : TransactionSelectorConfig) (mempool : List Transaction) :
    selectTransactions cfg mempool = selectSpec cfg mempool := by
  cases mempool with
  | nil =>
    simp [selectTransactions, selectSpec, SelectedTransactions.empty,
      stableSortBy, takeUnique]
  | cons t ts =>
    simp [selectTransactions, selectSpec, ceilPercent_twenty,
      ceilPercent_fifty, ceilPercent_ten, Nat.min_comm]

/-! ### Invariants of take_unique (for claim C4) -/

lemma takeUnique_length_le (cands : List TransactionWithMetadata) :
    ∀ sel count, (takeUnique sel cands count).1.length ≤ count := by
  induction cands with
  | nil => intro sel count; cases count <;> simp [takeUnique]
  | cons t ts ih =>
    intro sel count
    cases count with
    | zero => simp [takeUnique]
    | succ c =>
      rw [takeUnique]
      by_cases h : sel.contains t.transaction.id
      · simp only [h, if_true]; exact ih sel (c + 1)
      · simp only [h, if_false, List.length_cons]
        exact Nat.succ_le_succ (ih _ c)

lemma takeUnique_snd_eq (cands : List TransactionWithMetadata) :
    ∀ sel count, (takeUnique sel cands count).2 =
      ((takeUnique sel cands count).1.map
        (fun t => t.transaction.id)).reverse ++ sel := by
  induction cands with
  | nil => intro sel count; cases count <;> simp [takeUnique]
  | cons t ts ih =>
    intro sel count
    cases count with
    | zero => simp [takeUnique]
    | succ c =>
      rw [takeUnique]
      by_cases h : sel.contains t.transaction.id
      · simp only [h, if_true]; exact ih sel (c + 1)
      · simp only [h, Bool.false_eq_true, if_false, List.map_cons,
          List.reverse_cons, List.append_assoc, List.singleton_append]
        exact ih (t.transaction.id :: sel) c

lemma takeUnique_mem_snd (cands : List TransactionWithMetadata)
    (sel : List String) (count : Nat) (x : String)
    (hx : x ∈ (takeUnique sel cands count).1.map
        (fun t => t.transaction.id) ∨ x ∈ sel) :
    x ∈ (takeUnique sel cands count).2 := by
  rw [takeUnique_snd_eq]
  rcases hx with hx | hx <;> simp [hx]

lemma takeUnique_ids_nodup_fresh (cands : List TransactionWithMetadata) :
    ∀ sel count,
      ((takeUnique sel cands count).1.map
        (fun t => t.transaction.id)).Nodup ∧
      ∀ x ∈ (takeUnique sel cands count).1.map
        (fun t => t.transaction.id), x ∉ sel := by
  induction cands with
  | nil =>
    intro sel count
    cases count <;> simp [takeUnique]
  | cons t ts ih =>
    intro sel count
    cases count with
    | zero => simp [takeUnique]
    | succ c =>
      rw [takeUnique]
      by_cases h : sel.contains t.transaction.id
      · simp only [h, if_true]; exact ih sel (c + 1)
      · simp only [h, Bool.false_eq_true, if_false, List.map_cons,
          List.nodup_cons]
        obtain ⟨hnd, hfr⟩ := ih (t.transaction.id :: sel) c
        have hid : t.transaction.id ∉
            ((takeUnique (t.transaction.id :: sel) ts c).1.map
              (fun t => t.transaction.id)) := by
          intro hin
          exact hfr _ hin (List.mem_cons_self _ _)
        refine ⟨⟨hid, hnd⟩, ?_⟩
        intro x hx
        rcases List.mem_cons.mp hx with hx | hx
        · subst hx
          intro hmem
          exact h (List.elem_eq_true_of_mem hmem)
        · intro hmem
          exact hfr x hx (List.mem_cons_of_mem _ hmem)

/-- Ids produced by the four chained take_unique stages are pairwise
distinct: each stage starts from the selected-id set left by the
previous one. -/
lemma fourStage_ids_nodup (l1 l2 l3 l4 : List TransactionWithMetadata)
    (c1 c2 c3 c4 : Nat) :
    (((takeUnique [] l1 c1).1
      ++ ((takeUnique (takeUnique [] l1 c1).2 l2 c2).1
      ++ ((takeUnique (takeUnique (takeUnique [] l1 c1).2 l2 c2).2 l3
            c3).1
      ++ (takeUnique (takeUnique (takeUnique (takeUnique [] l1 c1).2 l2
            c2).2 l3 c3).2 l4 c4).1))).map
        (fun t => t.transaction.id)).Nodup := by
  obtain ⟨n1, _⟩ := takeUnique_ids_nodup_fresh l1 [] c1
  obtain ⟨n2, f2⟩ :=
    takeUnique_ids_nodup_fresh l2 (takeUnique [] l1 c1).2 c2
  obtain ⟨n3, f3⟩ := takeUnique_ids_nodup_fresh l3
    (takeUnique (takeUnique [] l1 c1).2 l2 c2).2 c3
  obtain ⟨n4, f4⟩ := takeUnique_ids_nodup_fresh l4
    (takeUnique (takeUnique (takeUnique [] l1 c1).2 l2 c2).2 l3 c3).2 c4
  simp only [List.map_append]
  rw [List.nodup_append, List.nodup_append, List.nodup_append]
  refine ⟨n1, ⟨n2, ⟨n3, n4, ?_⟩, ?_⟩, ?_⟩
  · -- stage-3 ids never appear among stage-4 ids
    intro x hx3 hx4
    exact f4 x hx4 (takeUnique_mem_snd _ _ _ x (Or.inl hx3))
  · -- stage-2 ids never appear among stage-3 or stage-4 ids
    intro x hx2 hx34
    have h2 : x ∈ (takeUnique (takeUnique [] l1 c1).2 l2 c2).2 :=
      takeUnique_mem_snd _ _ _ x (Or.inl hx2)
    rcases List.mem_append.mp hx34 with hx | hx
    · exact f3 x hx h2
    · exact f4 x hx (takeUnique_mem_snd _ _ _ x (Or.inr h2))
  · -- stage-1 ids never appear among later ids
    intro x hx1 hxr
    have h1 : x ∈ (takeUnique [] l1 c1).2 :=
      takeUnique_mem_snd _ _ _ x (Or.inl hx1)
    have h2 : x ∈ (takeUnique (takeUnique [] l1 c1).2 l2 c2).2 :=
      takeUnique_mem_snd _ _ _ x (Or.inr h1)
    rcases List.mem_append.mp hxr with hx | hx
    · exact f2 x hx h1
    rcases List.mem_append.mp hx with hx | hx
    · exact f3 x hx h2
    · exact f4 x hx (takeUnique_mem_snd _ _ _ x (Or.inr h2))

lemma fourStage_total_le (l1 l2 l3 l4 : List TransactionWithMetadata)
    (c1 c2 c3 c4 : Nat) :
    (takeUnique [] l1 c1).1.length
      + (takeUnique (takeUnique [] l1 c1).2 l2 c2).1.length
      + (takeUnique (takeUnique (takeUnique [] l1 c1).2 l2 c2).2 l3
          c3).1.length
      + (takeUnique (takeUnique (takeUnique (takeUnique [] l1 c1).2 l2
          c2).2 l3 c3).2 l4 c4).1.length
      ≤ c1 + c2 + c3 + c4 := by
  have h1 := takeUnique_length_le l1 [] c1
  have h2 := takeUnique_length_le l2 (takeUnique [] l1 c1).2 c2
  have h3 := takeUnique_length_le l3
    (takeUnique (takeUnique [] l1 c1).2 l2 c2).2 c3
  have h4 := takeUnique_length_le l4
    (takeUnique (takeUnique (takeUnique [] l1 c1).2 l2 c2).2 l3 c3).2 c4
  omega

lemma ceilPercent_sum_le (n : Nat) :
    ceilPercent 20 n + ceilPercent 20 n + ceilPercent 50 n
      + ceilPercent 10 n ≤ n + 3 := by
  unfold ceilPercent; omega

/-- C4 (amended): the four buckets are pairwise disjoint — in fact the
ids of all selected transactions are distinct — and the total number of
selected transactions is at most max_transactions_per_block + 3 (the
ceiling rounding of the four targets can overshoot N by up to three). -/
theorem select_buckets_disjoint_and_bounded
    (cfg : TransactionSelectorConfig) (mempool : List Transaction) :
    ((selectTransactions cfg mempool).allTransactions.map
      (fun t => t.transaction.id)).Nodup ∧
    (selectTransactions cfg mempool).totalSelected
      ≤ cfg.maxTransactionsPerBlock + 3 := by
  cases mempool with
  | nil =>
    constructor <;>
      simp [selectTransactions, SelectedTransactions.empty,
        SelectedTransactions.allTransactions]
  | cons t ts =>
    constructor
    · simp only [selectTransactions, List.isEmpty_cons,
        Bool.false_eq_true, if_false, SelectedTransactions.allTransactions,
        List.append_assoc]
      exact fourStage_ids_nodup _ _ _ _ _ _ _ _
    · simp only [selectTransactions, List.isEmpty_cons,
        Bool.false_eq_true, if_false]
      refine le_trans (fourStage_total_le _ _ _ _ _ _ _ _) ?_
      refine le_trans (ceilPercent_sum_le _) ?_
      have := Nat.min_le_left cfg.maxTransactionsPerBlock
        ((t :: ts).map TransactionWithMetadata.fromTransaction).length
      omega

/-- Configuration used in the counterexample to the claimed selection
bound: at most one transaction per block. -/
def smallBlockCfg : TransactionSelectorConfig :=
  { maxTransactionsPerBlock := 1
    targetBlockSize := 1000000
    totalPointsSpent := 0
    minTransactionFee := 1 }

/-- Two-transaction mempool with distinct point prices used in the
counterexample to the claimed selection bound. -/
def twoTxPool : List Transaction :=
  [{ id := "a", sender := "s", receiver := "r", amount := 0,
     signature := "g", timestamp := 1 },
   { id := "b", sender := "s", receiver := "r", amount := 2000000,
     signature := "g", timestamp := 2 }]

/-- C4 counterexample: with max_transactions_per_block = 1 and a
two-transaction mempool, N = 1 gives every bucket target 1, the high
stage takes one transaction and the low stage takes the other, so the
selection holds 2 > 1 transactions, violating the claimed bound
|high|+|low|+|avg|+|old| ≤ max_transactions_per_block. -/
theorem select_total_exceeds_max_counterexample :
    ¬ ((selectTransactions smallBlockCfg twoTxPool).totalSelected
        ≤ smallBlockCfg.maxTransactionsPerBlock) := by
  decide

/-! ## Block efficiency (src/consensus/transaction_selector.rs) -/

/-- BlockEfficiency metrics.  The three f64 fields are modelled as exact
rationals. -/
structure BlockEfficiency where
  totalPointData : Nat
  totalPointPrice : Nat
  avgPointPrice : Nat
  fillPercentage : ℚ
  priceStability : ℚ
  efficiencyScore : ℚ
  transactionCount : Nat
  deriving Repr, DecidableEq

/-- BlockEfficiency::default: every field zero. -/
def BlockEfficiency.default : BlockEfficiency :=
  { totalPointData := 0, totalPointPrice := 0, avgPointPrice := 0
    fillPercentage := 0, priceStability := 0, efficiencyScore := 0
    transactionCount := 0 }

/-- Ascending sort of a list of naturals (prices.sort() in the source). -/
def sortNatAsc (l : List Nat) : List Nat :=
  stableSortBy (fun a b => decide (a < b)) l

/-- Median of an already sorted price list as computed by
calculate_price_stability: integer mean of the two middle elements for
even length, the middle element for odd length. -/
def medianOfSorted (prices : List Nat) : Nat :=
  if prices.length % 2 == 0 then
    (prices.getD (prices.length / 2 - 1) 0
      + prices.getD (prices.length / 2) 0) / 2
  else
    prices.getD (prices.length / 2) 0

/-- TransactionSelector::calculate_price_stability. -/
def calculatePriceStability
    (transactions : List TransactionWithMetadata) : ℚ :=
  if transactions.isEmpty then 0
  else
    let prices := sortNatAsc (transactions.map (·.pointPrice))
    let median := medianOfSorted prices
    let avg := prices.sum / prices.length
    let diff := ((avg : ℤ) - (median : ℤ)).natAbs
    let maxExpectedDiff := max avg 1
    (1 - min ((diff : ℚ) / (maxExpectedDiff : ℚ)) 1) * 100

/-- TransactionSelector::calculate_block_efficiency. -/
def calculateBlockEfficiency (cfg : TransactionSelectorConfig)
    (selected : SelectedTransactions) : BlockEfficiency :=
  let allTx := selected.allTransactions
  if allTx.isEmpty then BlockEfficiency.default
  else
    let totalPointData := (allTx.map (·.pointData)).sum
    let totalPointPrice := (allTx.map (·.pointPrice)).sum
    let avgPointPrice := totalPointPrice / allTx.length
    let fillPercentage :=
      min ((totalPointData : ℚ) / (cfg.targetBlockSize : ℚ)) 1
    let priceStability := calculatePriceStability allTx
    let efficiencyScore :=
      fillPercentage * 40 + (priceStability / 100) * 60
    { totalPointData := totalPointData
      totalPointPrice := totalPointPrice
      avgPointPrice := avgPointPrice
      fillPercentage := fillPercentage
      priceStability := priceStability
      efficiencyScore := efficiencyScore
      transactionCount := allTx.length }

/-! ### The stable sort is a permutation -/

lemma insertOrdered_perm (lt : α → α → Bool) (x : α) (l : List α) :
    List.Perm (insertOrdered lt x l) (x :: l) := by
  induction l with
  | nil => exact List.Perm.refl _
  | cons y ys ih =>
    rw [insertOrdered]
    by_cases h : lt x y
    · rw [if_pos h]
    · rw [if_neg h]
      exact (ih.cons y).trans (List.Perm.swap x y ys)

lemma foldl_insertOrdered_perm (lt : α → α → Bool) (l : List α) :
    ∀ acc, List.Perm (l.foldl (fun a x => insertOrdered lt x a) acc) (l ++ acc) := by
  induction l with
  | nil => intro acc; simp
  | cons x xs ih =>
    intro acc
    have h1 : List.Perm (xs.foldl (fun a x => insertOrdered lt x a)
        (insertOrdered lt x acc)) (xs ++ insertOrdered lt x acc) := ih _
    have h2 : List.Perm (xs ++ insertOrdered lt x acc) (xs ++ x :: acc) :=
      (insertOrdered_perm lt x acc).append_left xs
    have h3 : List.Perm (xs ++ x :: acc) (x :: (xs ++ acc)) := List.perm_middle
    simpa using (h1.trans h2).trans h3

lemma stableSortBy_perm (lt : α → α → Bool) (l : List α) :
    List.Perm (stableSortBy lt l) l := by
  simpa [stableSortBy] using foldl_insertOrdered_perm lt l []

lemma sortNatAsc_sum (l : List Nat) : (sortNatAsc l).sum = l.sum :=
  (stableSortBy_perm _ l).sum_eq

lemma sortNatAsc_length (l : List Nat) :
    (sortNatAsc l).length = l.length :=
  (stableSortBy_perm _ l).length_eq

/-- Mean point price of a transaction list as the claim states it:
total point price over transaction count, in integer division. -/
def specAvgPrice (txs : List TransactionWithMetadata) : Nat :=
  (txs.map (·.pointPrice)).sum / txs.length

/-- Median point price as the claim states it: the median of the sorted
point prices. -/
def specMedianPrice (txs : List TransactionWithMetadata) : Nat :=
  medianOfSorted (sortNatAsc (txs.map (·.pointPrice)))

/-- C2: for a non-empty selection, calculate_block_efficiency returns
fill_percentage = min(1, total_point_data / target_block_size),
price_stability = 100·(1 − min(1, |avg − median| / max(avg, 1))) with
avg and median computed from the (sorted) point prices in integer
division, and efficiency_score = 0.40·100·fill + 0.60·stability; an
empty selection yields efficiency_score = 0. -/
theorem block_efficiency_matches_spec (cfg : TransactionSelectorConfig)
    (sel : SelectedTransactions) (h : sel.allTransactions ≠ []) :
    ((calculateBlockEfficiency cfg sel).fillPercentage
      = min 1 ((((sel.allTransactions.map (·.pointData)).sum : ℕ) : ℚ)
          / (cfg.targetBlockSize : ℚ)))
    ∧ ((calculateBlockEfficiency cfg sel).priceStability
      = 100 * (1 - min 1
          (|(specAvgPrice sel.allTransactions : ℚ)
              - (specMedianPrice sel.allTransactions : ℚ)|
            / (max (specAvgPrice sel.allTransactions) 1 : ℚ))))
    ∧ ((calculateBlockEfficiency cfg sel).efficiencyScore
      = (0.40 * 100) * (calculateBlockEfficiency cfg sel).fillPercentage
        + 0.60 * (calculateBlockEfficiency cfg sel).priceStability)
    ∧ (∀ (cfg2 : TransactionSelectorConfig)
        (sel2 : SelectedTransactions), sel2.allTransactions = [] →
        (calculateBlockEfficiency cfg2 sel2).efficiencyScore = 0) := by
  have hne : sel.allTransactions.isEmpty = false := by
    simpa [List.isEmpty_iff] using h
  refine ⟨?_, ?_, ?_, ?_⟩
  · simp only [calculateBlockEfficiency, hne, Bool.false_eq_true,
      if_false]
    rw [min_comm]
  · rw [calculateBlockEfficiency, calculatePriceStability]
    simp only [hne, Bool.false_eq_true, if_false]
    have havg : (sortNatAsc (sel.allTransactions.map (·.pointPrice))).sum
        / (sortNatAsc (sel.allTransactions.map (·.pointPrice))).length
        = specAvgPrice sel.allTransactions := by
      rw [specAvgPrice, sortNatAsc_sum, sortNatAsc_length,
        List.length_map]
    rw [havg]
    have hmed : medianOfSorted
        (sortNatAsc (sel.allTransactions.map (·.pointPrice)))
        = specMedianPrice sel.allTransactions := rfl
    rw [hmed]
    have hcast : ((((specAvgPrice sel.allTransactions : ℤ)
        - (specMedianPrice sel.allTransactions : ℤ)).natAbs : ℚ))
        = |(specAvgPrice sel.allTransactions : ℚ)
            - (specMedianPrice sel.allTransactions : ℚ)| := by
      push_cast [Int.cast_natAbs]
      ring_nf
    rw [hcast]
    rw [min_comm]
    push_cast [Nat.cast_max]
    ring
  · rw [calculateBlockEfficiency]
    simp only [hne, Bool.false_eq_true, if_false]
    ring
  · intro cfg2 sel2 h2
    rw [calculateBlockEfficiency]
    simp [h2, BlockEfficiency.default]

/-- Concrete one-transaction selection used to witness the efficiency
theorem. -/
def oneTxSelection : SelectedTransactions :=
  { highPrice := [TransactionWithMetadata.fromTransaction
      { id := "a", sender := "s", receiver := "r", amount := 0,
        signature := "g", timestamp := 1 }]
    lowPrice := [], avgPrice := [], oldest := []
    avgPointPrice := 1, totalSelected := 1 }

/-- Witness for the efficiency theorem: its hypothesis holds at a
concrete non-empty selection, and the fill-percentage formula follows
there. -/
theorem block_efficiency_matches_spec_witness :
    oneTxSelection.allTransactions ≠ [] ∧
    ((calculateBlockEfficiency TransactionSelectorConfig.default
        oneTxSelection).fillPercentage
      = min 1 ((((oneTxSelection.allTransactions.map
          (·.pointData)).sum : ℕ) : ℚ)
          / (TransactionSelectorConfig.default.targetBlockSize : ℚ))) :=
  ⟨by decide,
    (block_efficiency_matches_spec TransactionSelectorConfig.default
      oneTxSelection (by decide)).1⟩

/-! ## v1 consensus types (src/consensus/v1/types.rs) -/

/-- ConsensusConfig.  Durations are modelled in whole seconds. -/
structure ConsensusConfig where
  chainId : String
  blockTime : Nat
  timeoutProposeWindow : Nat
  timeoutVoting : Nat
  timeoutFinalize : Nat
  committeeSizeMin : Nat
  committeeSizeMax : Nat
  maxTxPerBlock : Nat
  maxBlockSize : Nat
  deriving Repr, DecidableEq

/-- ConsensusConfig::default with the protocol constants. -/
def ConsensusConfig.default : ConsensusConfig :=
  { chainId := "self-chain-mainnet"
    blockTime := 60
    timeoutProposeWindow := 50
    timeoutVoting := 8
    timeoutFinalize := 2
    committeeSizeMin := 10
    committeeSizeMax := 100
    maxTxPerBlock := 1000
    maxBlockSize := 1000000 }

/-- ConsensusConfig::quorum_threshold: 2/3 + 1 for BFT safety, in usize
integer arithmetic. -/
def ConsensusConfig.quorumThreshold (_cfg : ConsensusConfig)
    (committeeSize : Nat) : Nat :=
  committeeSize * 2 / 3 + 1

/-- RoundStep. -/
inductive RoundStep where
  | proposeWindow
  | voting
  | finalize
  | committed
  deriving Repr, DecidableEq

/-- RoundState. -/
structure RoundState where
  height : Nat
  round : Nat
  step : RoundStep
  referenceEfficiency : Nat
  proposalsReceived : Nat
  votesReceived : Nat
  winnerHash : Option (List Nat)
  deriving Repr, DecidableEq

/-- RoundState::new. -/
def RoundState.new (height : Nat) : RoundState :=
  { height := height
    round := 0
    step := RoundStep.proposeWindow
    referenceEfficiency := 0
    proposalsReceived := 0
    votesReceived := 0
    winnerHash := none }

/-- RoundState::advance_round: next round on timeout/failure. -/
def RoundState.advanceRound (s : RoundState) : RoundState :=
  { s with
    round := s.round + 1
    step := RoundStep.proposeWindow
    proposalsReceived := 0
    votesReceived := 0
    winnerHash := none }

/-- RoundState::new_height: start a fresh height after a commit. -/
def RoundState.newHeight (_s : RoundState) (height : Nat) : RoundState :=
  { height := height
    round := 0
    step := RoundStep.proposeWindow
    referenceEfficiency := 0
    proposalsReceived := 0
    votesReceived := 0
    winnerHash := none }

/-- C3: the quorum threshold is ⌊2n/3⌋ + 1; for a single validator the
quorum is 1; and exactly ⌊2n/3⌋ votes never reach quorum. -/
theorem quorum_threshold_spec (cfg : ConsensusConfig) (n : Nat)
    (h : 1 ≤ n) :
    cfg.quorumThreshold n = 2 * n / 3 + 1
    ∧ cfg.quorumThreshold 1 = 1
    ∧ ¬ (cfg.quorumThreshold n ≤ 2 * n / 3) := by
  unfold ConsensusConfig.quorumThreshold
  omega

/-- Witness for the quorum theorem at committee size 10 (quorum 7). -/
theorem quorum_threshold_spec_witness :
    (1 ≤ 10
      ∧ ConsensusConfig.default.quorumThreshold 10 = 2 * 10 / 3 + 1
      ∧ ConsensusConfig.default.quorumThreshold 1 = 1
      ∧ ¬ (ConsensusConfig.default.quorumThreshold 10 ≤ 2 * 10 / 3)) :=
  ⟨by decide, quorum_threshold_spec ConsensusConfig.default 10 (by decide)⟩

/-- C10: advance_round increments the round, returns to the propose
window, clears the per-round counters and winner, and leaves the height
and the reference efficiency untouched — while new_height resets the
reference efficiency to zero. -/
theorem advance_round_frame (s : RoundState) :
    (s.advanceRound).round = s.round + 1
    ∧ (s.advanceRound).step = RoundStep.proposeWindow
    ∧ (s.advanceRound).proposalsReceived = 0
    ∧ (s.advanceRound).votesReceived = 0
    ∧ (s.advanceRound).winnerHash = none
    ∧ (s.advanceRound).height = s.height
    ∧ (s.advanceRound).referenceEfficiency = s.referenceEfficiency
    ∧ (∀ h : Nat, (s.newHeight h).referenceEfficiency = 0) := by
  simp [RoundState.advanceRound, RoundState.newHeight]

/-! ## Voting system (src/consensus/voting.rs) -/

/-- Modelled from callers and the spec: the Vote record of the legacy
voting system (its defining module src/consensus/vote.rs is not among
the provided sources; voting.rs constructs it as
Vote::new(block_hash, validator_id, score)). -/
structure LegacyVote where
  blockHash : String
  validatorId : String
  score : Nat
  deriving Repr, DecidableEq

/-- Modelled from callers and the spec: the error type of the legacy
consensus module (src/consensus/error.rs is not among the provided
sources); voting.rs uses the VotingError and InsufficientParticipation
constructors. -/
inductive LegacyConsensusError where
  | votingError (msg : String)
  | insufficientParticipation (rate : ℚ)
  deriving Repr, DecidableEq

/-- VotingConfig. -/
structure VotingConfig where
  votingWindow : Nat
  minVoters : Nat
  minParticipation : ℚ
  deriving Repr, DecidableEq

/-- VotingConfig::default. -/
def VotingConfig.default : VotingConfig :=
  { votingWindow := 60, minVoters := 3, minParticipation := 1/2 }

/-- VotingRound. -/
structure VotingRound where
  blockHash : String
  startedAt : Nat
  endsAt : Nat
  deriving Repr, DecidableEq

/-- Mutable state of the VotingSystem: the vote map (keyed by validator
id, insertion overwrites) and the optional active round. -/
structure VotingState where
  votes : List (String × LegacyVote)
  currentRound : Option VotingRound
  deriving Repr, DecidableEq

/-- HashMap::insert on the vote map: replace any existing binding for
the validator. -/
def insertVote (votes : List (String × LegacyVote)) (validatorId : String)
    (v : LegacyVote) : List (String × LegacyVote) :=
  (validatorId, v) :: votes.filter (fun p => p.1 ≠ validatorId)

/-- VotingSystem::cast_vote: requires an active round, rejects a vote
whose block hash differs from the round's hash, rejects votes after the
window closes, and otherwise stores the vote under the validator id.
The current time is passed explicitly. -/
def castVote (st : VotingState) (now : Nat) (validatorId blockHash : String)
    (score : Nat) : Except LegacyConsensusError VotingState :=
  match st.currentRound with
  | none => .error (.votingError "No active voting round")
  | some round =>
    if round.blockHash ≠ blockHash then
      .error (.votingError "Vote for wrong block hash")
    else if round.endsAt < now then
      .error (.votingError "Voting window has closed")
    else
      let v : LegacyVote :=
        { blockHash := blockHash
          validatorId := validatorId
          score := score }
      .ok { st with votes := insertVote st.votes validatorId v }

/-- C5 (amended): any vote for a block hash other than the active
round's hash — whether or not the validator voted before — is refused
with the generic wrong-hash VotingError; since the call fails, the vote
map (and with it any earlier vote) is unchanged.  No equivocation
evidence exists in this system. -/
theorem cast_vote_wrong_hash_refused (st : VotingState) (now : Nat)
    (validatorId blockHash : String) (score : Nat) (round : VotingRound)
    (hr : st.currentRound = some round)
    (hh : round.blockHash ≠ blockHash) :
    castVote st now validatorId blockHash score
      = .error (.votingError "Vote for wrong block hash") := by
  rw [castVote, hr]
  simp [hh]

/-- Witness scenario for the voting theorems: validator v1 has already
voted for H1, the hash of the active round. -/
def witnessRound : VotingRound :=
  { blockHash := "H1", startedAt := 0, endsAt := 60 }

def votedVote : LegacyVote :=
  { blockHash := "H1"
    validatorId := "v1"
    score := 80 }

def votedState : VotingState :=
  { votes := [("v1", votedVote)]
    currentRound := some witnessRound }

/-- Witness for the amended voting theorem: at the concrete state where
v1 already voted for H1, a second vote for H2 is refused with the
wrong-hash error. -/
theorem cast_vote_wrong_hash_refused_witness :
    votedState.currentRound = some witnessRound
    ∧ witnessRound.blockHash ≠ "H2"
    ∧ castVote votedState 10 "v1" "H2" 90
      = .error (.votingError "Vote for wrong block hash") :=
  ⟨rfl, by decide,
    cast_vote_wrong_hash_refused votedState 10 "v1" "H2" 90
      witnessRound rfl (by decide)⟩

/-- C5 counterexample: the claim says a second vote by an
already-voted validator for a different hash triggers equivocation
evidence; in the code the very same generic wrong-hash VotingError is
returned whether or not the validator has voted before, no state with
evidence exists, and the error mentions no equivocation.  Both calls
below — one from the state where v1 already voted for H1, one from the
identical state without that vote — produce the identical error, so no
equivocation detection takes place. -/
theorem cast_vote_no_equivocation_evidence :
    castVote votedState 10 "v1" "H2" 90
      = .error (.votingError "Vote for wrong block hash")
    ∧ castVote { votedState with votes := [] } 10 "v1" "H2" 90
      = .error (.votingError "Vote for wrong block hash") :=
  ⟨rfl, rfl⟩

/-! ## Delegated keys (src/crypto/delegated_keys.rs) -/

/-- ASCII bytes of a string (all embedded protocol strings are ASCII). -/
def asciiBytes (s : String) : List Nat :=
  s.data.map (fun c => c.toNat)

/-- Little-endian 8-byte encoding of a u64 value
(u64::to_le_bytes). -/
def leBytes8 (n : Nat) : List Nat :=
  (List.range 8).map (fun i => n / 256 ^ i % 256)

/-- Modelled from callers and the spec: the error type of the crypto
module (src/crypto/mod.rs is not among the provided sources);
delegated_keys.rs uses these three constructors. -/
inductive CryptoError where
  | keyGenerationError (msg : String)
  | invalidKeyFormat (msg : String)
  | signingError (msg : String)
  deriving Repr, DecidableEq

/-- KeyOperation: what a key is allowed to do. -/
inductive KeyOperation where
  | sendTransaction
  | vote
  | validateColorMarker
  | revokeValidatorKey
  | migrateValidator
  deriving Repr, DecidableEq

/-- Revocation certificate for a validator key. -/
structure Revocation where
  masterAddress : String
  validatorPublicKey : List Nat
  timestamp : Nat
  signature : List Nat
  deriving Repr, DecidableEq

/-- Revocation::verify: the source reconstructs the message
"REVOKE_VALIDATOR" || validator_public_key || timestamp_le8 and then —
per its own TODO — skips the signature check and returns Ok(true)
unconditionally. -/
def Revocation.verify (r : Revocation) (_masterPublicKey : List Nat) :
    Except CryptoError Bool :=
  let _message := asciiBytes "REVOKE_VALIDATOR" ++ r.validatorPublicKey
    ++ leBytes8 r.timestamp
  .ok true

/-- C6 (divergence witness): Revocation::verify accepts every
revocation, whatever its signature and whatever master public key is
supplied; in particular a revocation whose signature cannot possibly
verify is still reported valid, contradicting the claim that
verification is required. -/
theorem revocation_verify_always_ok (r : Revocation)
    (masterPublicKey : List Nat) :
    r.verify masterPublicKey = .ok true := rfl

/-- ValidatorKey with scope-limited permissions. -/
structure ValidatorKey where
  privateKey : List Nat
  publicKey : List Nat
  masterAddress : String
  nonce : List Nat
  createdAt : Nat
  revoked : Bool
  deriving Repr, DecidableEq

/-- ValidatorKey::can_perform: a revoked key can do nothing; otherwise
only voting and color-marker validation are allowed. -/
def ValidatorKey.canPerform (k : ValidatorKey) (op : KeyOperation) :
    Bool :=
  if k.revoked then false
  else
    match op with
    | .vote | .validateColorMarker => true
    | .sendTransaction | .revokeValidatorKey | .migrateValidator => false

/-- ValidatorKey::sign (private helper): fails on a revoked key, else
delegates to the ECDSA backend.  The backend
(src/crypto/classic/ecdsa.rs is not among the provided sources) is
passed explicitly as the combined from_private_key-then-sign
operation. -/
def ValidatorKey.signInternal
    (ecdsaSign : List Nat → List Nat → Except CryptoError (List Nat))
    (k : ValidatorKey) («data» : List Nat) :
    Except CryptoError (List Nat) :=
  if k.revoked then .error (.signingError "Key is revoked")
  else ecdsaSign k.privateKey «data»

/-- ValidatorKey::sign_vote: gated on can_perform(Vote), then signs
"VOTE" || block_hash || vote_byte || timestamp_le8.  The current
timestamp is passed explicitly. -/
def ValidatorKey.signVote
    (ecdsaSign : List Nat → List Nat → Except CryptoError (List Nat))
    (k : ValidatorKey) (blockHash : List Nat) (vote : Bool) (now : Nat) :
    Except CryptoError (List Nat) :=
  if !(k.canPerform .vote) then
    .error (.signingError "Validator key is revoked")
  else
    k.signInternal ecdsaSign
      (asciiBytes "VOTE" ++ blockHash ++ [if vote then 1 else 0]
        ++ leBytes8 now)

/-- ValidatorKey::sign_color_validation: gated on
can_perform(ValidateColorMarker), then signs
"COLOR_VALIDATION" || tx_hash || valid_byte. -/
def ValidatorKey.signColorValidation
    (ecdsaSign : List Nat → List Nat → Except CryptoError (List Nat))
    (k : ValidatorKey) (txHash : List Nat) (valid : Bool) :
    Except CryptoError (List Nat) :=
  if !(k.canPerform .validateColorMarker) then
    .error (.signingError "Validator key is revoked")
  else
    k.signInternal ecdsaSign
      (asciiBytes "COLOR_VALIDATION" ++ txHash
        ++ [if valid then 1 else 0])

/-- ValidatorKey::sign_transaction: always fails. -/
def ValidatorKey.signTransaction (_k : ValidatorKey)
    (_txData : List Nat) : Except CryptoError (List Nat) :=
  .error (.signingError
    "Validator keys cannot sign transactions - use master key")

/-- ValidatorKey::revoke: set the revoked flag and zeroize the private
key bytes (the zeroize crate overwrites the buffer with zeros). -/
def ValidatorKey.revoke (k : ValidatorKey) : ValidatorKey :=
  { k with
    revoked := true
    privateKey := k.privateKey.map (fun _ => 0) }

/-- C7: sign_transaction fails on every input with the
"cannot sign transactions" error; revoke sets the revoked flag and
zeroizes every private key byte; and a revoked key fails every signing
operation (sign_vote and sign_color_validation), whatever ECDSA backend
is plugged in — so a revoked validator key signs no message. -/
theorem validator_key_scope_and_revocation
    (ecdsaSign : List Nat → List Nat → Except CryptoError (List Nat))
    (k : ValidatorKey) (txData blockHash txHash : List Nat)
    (vote valid : Bool) (now : Nat) :
    k.signTransaction txData
      = .error (.signingError
          "Validator keys cannot sign transactions - use master key")
    ∧ (k.revoke).revoked = true
    ∧ (∀ b ∈ (k.revoke).privateKey, b = 0)
    ∧ (k.revoke).signVote ecdsaSign blockHash vote now
      = .error (.signingError "Validator key is revoked")
    ∧ (k.revoke).signColorValidation ecdsaSign txHash valid
      = .error (.signingError "Validator key is revoked") := by
  refine ⟨rfl, rfl, ?_, ?_, ?_⟩
  · intro b hb
    rcases List.mem_map.mp hb with ⟨a, _, ha⟩
    exact ha.symm
  · simp [ValidatorKey.signVote, ValidatorKey.canPerform,
      ValidatorKey.revoke]
  · simp [ValidatorKey.signColorValidation, ValidatorKey.canPerform,
      ValidatorKey.revoke]

/-! ## SHA3-256 (sha3 crate, used by MasterKey::derive_address) -/

/-- All-ones 64-bit mask. -/
def mask64 : Nat := 2 ^ 64 - 1

/-- 64-bit left rotation. -/
def rotl64 (n r : Nat) : Nat :=
  ((n <<< r) ||| (n >>> (64 - r))) &&& mask64

/-- Keccak rotation offsets, one row per y, lane (x, y) at flat index
x + 5y. -/
def keccakRotRows : List (List Nat) :=
  [[0, 1, 62, 28, 27],
   [36, 44, 6, 55, 20],
   [3, 10, 43, 25, 39],
   [41, 45, 15, 21, 8],
   [18, 2, 61, 56, 14]]

/-- Keccak rotation offsets, flattened with lane (x, y) at index
x + 5y. -/
def keccakRotOffsets : List Nat := keccakRotRows.flatten

/-- Keccak round constants, grouped in fours. -/
def keccakRCRows : List (List Nat) :=
  [[0x0000000000000001, 0x0000000000008082,
    0x800000000000808a, 0x8000000080008000],
   [0x000000000000808b, 0x0000000080000001,
    0x8000000080008081, 0x8000000000008009],
   [0x000000000000008a, 0x0000000000000088,
    0x0000000080008009, 0x000000008000000a],
   [0x000000008000808b, 0x800000000000008b,
    0x8000000000008089, 0x8000000000008003],
   [0x8000000000008002, 0x8000000000000080,
    0x000000000000800a, 0x800000008000000a],
   [0x8000000080008081, 0x8000000000008080,
    0x0000000080000001, 0x8000000080008008]]

/-- Keccak round constants for the 24 rounds of Keccak-f[1600]. -/
def keccakRoundConstants : List Nat := keccakRCRows.flatten

/-- Lane (x, y) of a Keccak state held as 25 flattened 64-bit words. -/
def lane (st : List Nat) (x y : Nat) : Nat := st.getD (x + 5 * y) 0

/-- Keccak theta step. -/
def thetaStep (st : List Nat) : List Nat :=
  let c := (List.range 5).map (fun x =>
    lane st x 0 ^^^ lane st x 1 ^^^ lane st x 2 ^^^ lane st x 3
      ^^^ lane st x 4)
  let d := (List.range 5).map (fun x =>
    c.getD ((x + 4) % 5) 0 ^^^ rotl64 (c.getD ((x + 1) % 5) 0) 1)
  (List.range 25).map (fun i => st.getD i 0 ^^^ d.getD (i % 5) 0)

/-- Keccak rho and pi steps combined: the output lane at (xp, yp) is
the rotated input lane at (xp + 3·yp mod 5, xp). -/
def rhoPiStep (st : List Nat) : List Nat :=
  (List.range 25).map (fun i =>
    let xp := i % 5
    let yp := i / 5
    let y := xp
    let x := (xp + 3 * yp) % 5
    rotl64 (lane st x y) (keccakRotOffsets.getD (x + 5 * y) 0))

/-- Keccak chi step. -/
def chiStep (st : List Nat) : List Nat :=
  (List.range 25).map (fun i =>
    let x := i % 5
    let y := i / 5
    lane st x y ^^^
      ((lane st ((x + 1) % 5) y ^^^ mask64) &&& lane st ((x + 2) % 5) y))

/-- One Keccak round: theta, rho-pi, chi, then iota with the round
constant. -/
def keccakRound (st : List Nat) (rc : Nat) : List Nat :=
  let st := thetaStep st
  let st := rhoPiStep st
  let st := chiStep st
  st.set 0 (st.getD 0 0 ^^^ rc)

/-- The Keccak-f[1600] permutation (24 rounds). -/
def keccakF (st : List Nat) : List Nat :=
  keccakRoundConstants.foldl keccakRound st

/-- Little-endian byte list to 64-bit lane. -/
def bytesToLane (bs : List Nat) : Nat :=
  bs.foldr (fun b acc => acc * 256 + b) 0

/-- Absorb one 136-byte rate block into the state and permute. -/
def absorbBlock (st : List Nat) (block : List Nat) : List Nat :=
  keccakF ((List.range 25).map (fun i =>
    st.getD i 0 ^^^
      (if i < 17 then bytesToLane ((block.drop (8 * i)).take 8) else 0)))

/-- Fuel-driven list chunking (the fuel is at least the list length, so
every element is consumed for a positive chunk size). -/
def chunksGo (n : Nat) : Nat → List α → List (List α)
  | 0, _ => []
  | _, [] => []
  | Nat.succ fuel, x :: xs =>
    ((x :: xs).take n) :: chunksGo n fuel ((x :: xs).drop n)

/-- Split a list into chunks of n elements (the last chunk may be
shorter). -/
def chunksOf (n : Nat) (l : List α) : List (List α) :=
  chunksGo n l.length l

/-- SHA3 pad10*1 padding with the 0x06 domain byte, to a multiple of
the 136-byte rate. -/
def sha3Pad (msgLen : Nat) : List Nat :=
  let padLen := 136 - msgLen % 136
  if padLen = 1 then [0x86]
  else [0x06] ++ List.replicate (padLen - 2) 0 ++ [0x80]

/-- SHA3-256 of a byte list: absorb the padded message and squeeze the
first 32 bytes.  Checked against the standard test vectors for the
empty message and for "abc". -/
def sha3_256 (msg : List Nat) : List Nat :=
  let padded := msg ++ sha3Pad msg.length
  let blocks := chunksOf 136 padded
  let st := blocks.foldl absorbBlock (List.replicate 25 0)
  (List.range 32).map (fun i => st.getD (i / 8) 0 / 256 ^ (i % 8) % 256)

/-- Lowercase hex digit for a value below 16. -/
def hexDigitChar (n : Nat) : Char :=
  if n < 10 then Char.ofNat (48 + n) else Char.ofNat (87 + n)

/-- Lowercase hex string of a byte list, two digits per byte. -/
def hexOfBytes (bs : List Nat) : String :=
  String.mk ((bs.map
    (fun b => [hexDigitChar (b / 16), hexDigitChar (b % 16)])).flatten)

/-- MasterKey::derive_address: SHA3-256 of the public key, then the hex
encoding of hash[hash.len() − 20 ..] — the LAST 20 bytes — prefixed
with 0x. -/
def deriveAddress (publicKey : List Nat) : String :=
  let hash := sha3_256 publicKey
  "0x" ++ hexOfBytes (hash.drop (hash.length - 20))

/-- Address as the claim states it: hex of the FIRST 20 bytes of the
SHA3-256 digest, prefixed with 0x. -/
def specAddressFirst20 (publicKey : List Nat) : String :=
  "0x" ++ hexOfBytes ((sha3_256 publicKey).take 20)

lemma sha3_256_length (msg : List Nat) : (sha3_256 msg).length = 32 := by
  simp [sha3_256]

/-- C8 (amended): the wallet address is the hex encoding of the LAST 20
bytes (bytes 12..32) of the 32-byte SHA3-256 digest of the public key,
prefixed with 0x. -/
theorem derive_address_last_twenty (publicKey : List Nat) :
    (sha3_256 publicKey).length = 32
    ∧ deriveAddress publicKey
      = "0x" ++ hexOfBytes ((sha3_256 publicKey).drop 12) := by
  refine ⟨sha3_256_length publicKey, ?_⟩
  simp only [deriveAddress]
  rw [sha3_256_length publicKey]

set_option maxRecDepth 10000 in
/-- C8 counterexample: for the concrete public key [1, 2, 3] the address
the code derives (last 20 digest bytes) differs from the claimed one
(first 20 digest bytes). -/
theorem derive_address_not_first_twenty :
    deriveAddress [1, 2, 3] ≠ specAddressFirst20 [1, 2, 3] := by
  decide

/-! ## SHA-256 (sha2 crate; the hash the spec claims the color marker
uses) -/

/-- All-ones 32-bit mask. -/
def mask32 : Nat := 2 ^ 32 - 1

/-- 32-bit right rotation. -/
def rotr32 (x r : Nat) : Nat :=
  ((x >>> r) ||| (x <<< (32 - r))) &&& mask32

/-- SHA-256 round constants, grouped in fours. -/
def sha256KRows : List (List Nat) :=
  [[0x428a2f98, 0x71374491, 0xb5c0fbcf, 0xe9b5dba5],
   [0x3956c25b, 0x59f111f1, 0x923f82a4, 0xab1c5ed5],
   [0xd807aa98, 0x12835b01, 0x243185be, 0x550c7dc3],
   [0x72be5d74, 0x80deb1fe, 0x9bdc06a7, 0xc19bf174],
   [0xe49b69c1, 0xefbe4786, 0x0fc19dc6, 0x240ca1cc],
   [0x2de92c6f, 0x4a7484aa, 0x5cb0a9dc, 0x76f988da],
   [0x983e5152, 0xa831c66d, 0xb00327c8, 0xbf597fc7],
   [0xc6e00bf3, 0xd5a79147, 0x06ca6351, 0x14292967],
   [0x27b70a85, 0x2e1b2138, 0x4d2c6dfc, 0x53380d13],
   [0x650a7354, 0x766a0abb, 0x81c2c92e, 0x92722c85],
   [0xa2bfe8a1, 0xa81a664b, 0xc24b8b70, 0xc76c51a3],
   [0xd192e819, 0xd6990624, 0xf40e3585, 0x106aa070],
   [0x19a4c116, 0x1e376c08, 0x2748774c, 0x34b0bcb5],
   [0x391c0cb3, 0x4ed8aa4a, 0x5b9cca4f, 0x682e6ff3],
   [0x748f82ee, 0x78a5636f, 0x84c87814, 0x8cc70208],
   [0x90befffa, 0xa4506ceb, 0xbef9a3f7, 0xc67178f2]]

/-- SHA-256 round constants. -/
def sha256K : List Nat := sha256KRows.flatten

/-- SHA-256 initial hash values, grouped in fours. -/
def sha256H0Rows : List (List Nat) :=
  [[0x6a09e667, 0xbb67ae85, 0x3c6ef372, 0xa54ff53a],
   [0x510e527f, 0x9b05688c, 0x1f83d9ab, 0x5be0cd19]]

/-- SHA-256 initial hash values. -/
def sha256H0 : List Nat := sha256H0Rows.flatten

/-- Big-endian 8-byte encoding. -/
def beBytes8 (n : Nat) : List Nat :=
  (List.range 8).map (fun i => n / 256 ^ (7 - i) % 256)

/-- Big-endian 4-byte encoding. -/
def beBytes4 (n : Nat) : List Nat :=
  (List.range 4).map (fun i => n / 256 ^ (3 - i) % 256)

/-- SHA-256 padding: 0x80, zeros, then the bit length as 8 big-endian
bytes, to a multiple of 64 bytes. -/
def sha256Pad (msg : List Nat) : List Nat :=
  let len := msg.length
  let zeros := (119 - len % 64) % 64
  msg ++ [0x80] ++ List.replicate zeros 0 ++ beBytes8 (8 * len)

/-- Big-endian word from a byte list. -/
def beWord (bs : List Nat) : Nat :=
  bs.foldl (fun acc b => acc * 256 + b) 0

/-- SHA-256 sigma-0 (message schedule). -/
def smallSigma0 (x : Nat) : Nat :=
  rotr32 x 7 ^^^ rotr32 x 18 ^^^ (x >>> 3)

/-- SHA-256 sigma-1 (message schedule). -/
def smallSigma1 (x : Nat) : Nat :=
  rotr32 x 17 ^^^ rotr32 x 19 ^^^ (x >>> 10)

/-- SHA-256 Sigma-0 (compression). -/
def bigSigma0 (x : Nat) : Nat :=
  rotr32 x 2 ^^^ rotr32 x 13 ^^^ rotr32 x 22

/-- SHA-256 Sigma-1 (compression). -/
def bigSigma1 (x : Nat) : Nat :=
  rotr32 x 6 ^^^ rotr32 x 11 ^^^ rotr32 x 25

/-- SHA-256 message schedule: 16 big-endian block words extended to
64. -/
def sha256Schedule (block : List Nat) : List Nat :=
  let w16 := (List.range 16).map
    (fun i => beWord ((block.drop (4 * i)).take 4))
  (List.range 48).foldl (fun w t =>
    let a := w.getD t 0
    let b := w.getD (t + 1) 0
    let c := w.getD (t + 9) 0
    let d := w.getD (t + 14) 0
    w ++ [(a + smallSigma0 b + c + smallSigma1 d) &&& mask32]) w16

/-- SHA-256 compression of one 64-byte block into the running hash. -/
def sha256Compress (h : List Nat) (block : List Nat) : List Nat :=
  let w := sha256Schedule block
  let st := (List.range 64).foldl (fun st t =>
    match st with
    | [a, b, c, d, e, f, g, hh] =>
      let ch := (e &&& f) ^^^ ((e ^^^ mask32) &&& g)
      let maj := (a &&& b) ^^^ (a &&& c) ^^^ (b &&& c)
      let t1 := (hh + bigSigma1 e + ch + sha256K.getD t 0
        + w.getD t 0) &&& mask32
      let t2 := (bigSigma0 a + maj) &&& mask32
      [(t1 + t2) &&& mask32, a, b, c, (d + t1) &&& mask32, e, f, g]
    | other => other) h
  (List.range 8).map (fun i => (h.getD i 0 + st.getD i 0) &&& mask32)

/-- SHA-256 of a byte list as 32 bytes.  Checked against the standard
test vectors for the empty message and for "abc". -/
def sha256 (msg : List Nat) : List Nat :=
  let blocks := chunksOf 64 (sha256Pad msg)
  ((blocks.foldl sha256Compress sha256H0).map beBytes4).flatten

/-- Lowercase hex characters of a byte list, two per byte. -/
def hexCharsOfBytes (bs : List Nat) : List Char :=
  (bs.map (fun b => [hexDigitChar (b / 16), hexDigitChar (b % 16)])).flatten

/-- Hex digest of SHA-256 as a character list (always 64 chars). -/
def sha256HexChars (msg : List Nat) : List Char :=
  hexCharsOfBytes (sha256 msg)

lemma sha256Compress_length (h block : List Nat) :
    (sha256Compress h block).length = 8 := by
  simp [sha256Compress]

lemma foldl_sha256Compress_length (bs : List (List Nat)) (h : List Nat)
    (hh : h.length = 8) : (bs.foldl sha256Compress h).length = 8 := by
  induction bs generalizing h with
  | nil => exact hh
  | cons b bs ih => exact ih _ (sha256Compress_length h b)

lemma sha256_length (msg : List Nat) : (sha256 msg).length = 32 := by
  rw [sha256]
  rw [List.length_flatten, List.map_map]
  rw [List.map_congr_left (g := fun _ => 4)
    (fun a _ => by simp [Function.comp, beBytes4])]
  rw [List.map_const', List.sum_replicate, smul_eq_mul,
    foldl_sha256Compress_length _ _ (by decide)]

lemma sha256HexChars_length (msg : List Nat) :
    (sha256HexChars msg).length = 64 := by
  rw [sha256HexChars, hexCharsOfBytes, List.length_flatten,
    List.map_map]
  rw [List.map_congr_left (g := fun _ => 2)
    (fun a _ => by simp [Function.comp])]
  rw [List.map_const', List.sum_replicate, smul_eq_mul,
    sha256_length]

/-! ## The legacy transaction hash (src/blockchain/mod.rs,
Transaction::hash via std DefaultHasher) -/

/-- One round of the SipHash permutation. -/
structure SipState where
  v0 : Nat
  v1 : Nat
  v2 : Nat
  v3 : Nat
  deriving Repr, DecidableEq

/-- The SipHash ARX round. -/
def sipRound (s : SipState) : SipState :=
  let v0 := (s.v0 + s.v1) &&& mask64
  let v1 := rotl64 s.v1 13
  let v1 := v1 ^^^ v0
  let v0 := rotl64 v0 32
  let v2 := (s.v2 + s.v3) &&& mask64
  let v3 := rotl64 s.v3 16
  let v3 := v3 ^^^ v2
  let v0 := (v0 + v3) &&& mask64
  let v3 := rotl64 v3 21
  let v3 := v3 ^^^ v0
  let v2 := (v2 + v1) &&& mask64
  let v1 := rotl64 v1 17
  let v1 := v1 ^^^ v2
  let v2 := rotl64 v2 32
  { v0 := v0, v1 := v1, v2 := v2, v3 := v3 }

/-- Absorb one message word with a single compression round
(SipHash-1-x). -/
def sipCompress (s : SipState) (m : Nat) : SipState :=
  let s := { s with v3 := s.v3 ^^^ m }
  let s := sipRound s
  { s with v0 := s.v0 ^^^ m }

/-- SipHash-1-3 of a byte stream.  std::hash::DefaultHasher is
SipHasher13 with both keys zero; checked against the Rust standard
library test vector for the keyed variant. -/
def sipHash13 (k0 k1 : Nat) (msg : List Nat) : Nat :=
  let s : SipState :=
    { v0 := 0x736f6d6570736575 ^^^ k0
      v1 := 0x646f72616e646f6d ^^^ k1
      v2 := 0x6c7967656e657261 ^^^ k0
      v3 := 0x7465646279746573 ^^^ k1 }
  let fullLen := msg.length / 8 * 8
  let fullWords := (chunksOf 8 (msg.take fullLen)).map bytesToLane
  let lastWord := bytesToLane (msg.drop fullLen)
    + (msg.length % 256) * 2 ^ 56
  let s := fullWords.foldl sipCompress s
  let s := sipCompress s lastWord
  let s := { s with v2 := s.v2 ^^^ 0xff }
  let s := sipRound (sipRound (sipRound s))
  s.v0 ^^^ s.v1 ^^^ s.v2 ^^^ s.v3

/-- UTF-8 encoding of one character as byte values. -/
def utf8EncodeCharNat (c : Char) : List Nat :=
  let n := c.toNat
  if n < 0x80 then [n]
  else if n < 0x800 then [0xC0 + n / 64, 0x80 + n % 64]
  else if n < 0x10000 then
    [0xE0 + n / 4096, 0x80 + n / 64 % 64, 0x80 + n % 64]
  else
    [0xF0 + n / 262144, 0x80 + n / 4096 % 64, 0x80 + n / 64 % 64,
     0x80 + n % 64]

/-- UTF-8 bytes of a string. -/
def utf8Bytes (s : String) : List Nat :=
  (s.data.map utf8EncodeCharNat).flatten

/-- Byte stream contributed by hashing one &str with a std Hasher: the
UTF-8 bytes followed by the 0xff terminator. -/
def strHashBytes (s : String) : List Nat :=
  utf8Bytes s ++ [0xff]

/-- The byte stream Transaction::hash feeds to the hasher: id, sender,
receiver, amount (8 bytes, little-endian on the targeted platforms),
timestamp, signature, in source order. -/
def hashStream (tx : Transaction) : List Nat :=
  strHashBytes tx.id ++ strHashBytes tx.sender
    ++ strHashBytes tx.receiver ++ leBytes8 tx.amount
    ++ leBytes8 tx.timestamp ++ strHashBytes tx.signature

/-- Transaction::hash: the 64-bit DefaultHasher digest of the field
stream. -/
def defaultHasher64 (tx : Transaction) : Nat :=
  sipHash13 0 0 (hashStream tx)

/-- Fuel-driven hex rendering (most significant digit first), used with
fuel at least the value. -/
def natToHexGo : Nat → Nat → List Char
  | 0, _ => []
  | Nat.succ fuel, m =>
    if m = 0 then [] else natToHexGo fuel (m / 16) ++ [hexDigitChar (m % 16)]

/-- Lowercase hex rendering of a Nat without leading zeros, as Rust
format!("\x7b:x\x7d") produces. -/
def natToHexChars (n : Nat) : List Char :=
  if n = 0 then ['0'] else natToHexGo n n

/-- Transaction::hash rendered as the hex string the validator splits:
at most 16 characters, since the digest is a u64. -/
def Transaction.hashHex (tx : Transaction) : List Char :=
  natToHexChars (defaultHasher64 tx)

/-! ## Color markers (src/consensus/validator.rs) -/

/-- char::to_digit(16): the value of a hex digit, if any. -/
def hexDigitVal? (c : Char) : Option Nat :=
  if 48 ≤ c.toNat ∧ c.toNat ≤ 57 then some (c.toNat - 48)
  else if 97 ≤ c.toNat ∧ c.toNat ≤ 102 then some (c.toNat - 87)
  else if 65 ≤ c.toNat ∧ c.toNat ≤ 70 then some (c.toNat - 55)
  else none

/-- Digit sum of a character list, counting only hex digits, as the
source loop does. -/
def sumHexChars (cs : List Char) : Nat :=
  cs.foldl (fun acc c => acc + (hexDigitVal? c).getD 0) 0

/-- Fuel-driven base-16 digit sum, used with fuel at least the value. -/
def hexDigitSumGo : Nat → Nat → Nat
  | 0, _ => 0
  | Nat.succ fuel, m =>
    if m = 0 then 0 else m % 16 + hexDigitSumGo fuel (m / 16)

/-- Sum of the base-16 digits of a Nat. -/
def hexDigitSum (n : Nat) : Nat := hexDigitSumGo n n

/-- Fuel-driven loop of Validator::reduce_to_single_hex_digit: sum the
hex digits of the running value until it is a single hex digit.  Each
iteration strictly shrinks a value of 16 or more, so fuel equal to the
starting value always suffices. -/
def reduceNatHexGo : Nat → Nat → Nat
  | 0, s => s
  | Nat.succ fuel, s =>
    if s < 16 then s else reduceNatHexGo fuel (hexDigitSum s)

/-- Collapse a Nat to a single hex digit by repeated hex digit sums. -/
def reduceNatHex (s : Nat) : Nat := reduceNatHexGo s s

/-- Validator::reduce_to_single_hex_digit: digit-sum the characters,
then keep summing hex digits until one hex digit remains, and render it
lowercase.  The empty string collapses to '0'. -/
def reduceToSingleHexDigit (cs : List Char) : Char :=
  hexDigitChar (reduceNatHex (sumHexChars cs))

/-- Core of Validator::calculate_hex_transaction, applied to the hex
characters of the transaction hash: fail when fewer than 6 characters,
else split into six parts of length len/6 (the sixth part keeps the
remainder) and reduce each part to a single hex digit. -/
def calcHexFromHash (hashHex : List Char) : Except String (List Char) :=
  if hashHex.length < 6 then
    .error "Transaction hash too short for color calculation"
  else
    let partSize := hashHex.length / 6
    .ok ((List.range 6).map (fun i =>
      let start := i * partSize
      let stop := if i = 5 then hashHex.length else (i + 1) * partSize
      reduceToSingleHexDigit ((hashHex.drop start).take (stop - start))))

/-- Validator::calculate_hex_transaction: split-and-reduce the hex
characters of Transaction::hash. -/
def calculateHexTransaction (tx : Transaction) : Except String String :=
  match calcHexFromHash (Transaction.hashHex tx) with
  | .error e => .error e
  | .ok cs => .ok (String.mk cs)

/-- Validator::is_valid_hex: exactly six ASCII hex digits (either
case). -/
def isValidSixHex (s : String) : Bool :=
  s.length == 6 && s.data.all (fun c => (hexDigitVal? c).isSome)

/-- u32::from_str_radix(s, 16) on an already validated string. -/
def parseHexNat (s : String) : Nat :=
  s.data.foldl (fun acc c => acc * 16 + (hexDigitVal? c).getD 0) 0

/-- format!("\x7b:06x\x7d"): six lowercase hex digits with leading
zeros (the argument is below 2^24). -/
def formatHex6 (n : Nat) : String :=
  String.mk ((List.range 6).map (fun i => hexDigitChar (n / 16 ^ (5 - i) % 16)))

/-- Validator::calculate_new_color: validate both colors, parse them as
hex, add modulo 0x1000000, format as six lowercase hex digits. -/
def calculateNewColor (currentColor hexTx : String) :
    Except String String :=
  if !isValidSixHex currentColor then
    .error ("Invalid current color format: " ++ currentColor)
  else if !isValidSixHex hexTx then
    .error ("Invalid hex transaction format: " ++ hexTx)
  else
    .ok (formatHex6 ((parseHexNat currentColor + parseHexNat hexTx)
      % 0x1000000))

/-- Claim-side byte encoding of a transaction for the SHA-256 the spec
names.  The spec fixes no encoding; the digest length — the only fact
the counterexample uses — is 64 hex characters for every encoding. -/
def specSha256Input (tx : Transaction) : List Nat :=
  utf8Bytes (tx.id ++ tx.sender ++ tx.receiver ++ Nat.repr tx.amount
    ++ Nat.repr tx.timestamp ++ tx.signature)

/-- Concrete transaction for the color-marker counterexample. -/
def colorTx : Transaction :=
  { id := "tx1", sender := "alice", receiver := "bob", amount := 42,
    signature := "sig", timestamp := 7 }

set_option maxRecDepth 4000 in
/-- C9 counterexample: the characters the color update splits are the
hex form of the 64-bit DefaultHasher digest of the transaction — at
most 16 of them — never the 64-character SHA-256 digest the claim
names; at the concrete transaction the two strings differ (already in
length). -/
theorem hex_tx_source_is_not_sha256 :
    Transaction.hashHex colorTx
      ≠ sha256HexChars (specSha256Input colorTx)
    ∧ (Transaction.hashHex colorTx).length ≤ 16
    ∧ (sha256HexChars (specSha256Input colorTx)).length = 64 := by
  refine ⟨by decide, by decide, by decide⟩

set_option maxRecDepth 4000 in
/-- C9 (amended): the color update splits the transaction's hex hash
(the DefaultHasher digest, not SHA-256) into six parts of length
⌊len/6⌋ — the sixth part keeping the remainder — reduces each part to a
single hex digit by repeated hex digit sums, and concatenates; the new
color of a valid 6-hex pair is (current + hex_tx) mod 0x1000000 in six
lowercase hex digits; in particular 000001 + 000001 gives 000002 and
ffffff + 000002 wraps to 000001. -/
theorem color_update_pipeline
    (hash : List Char) (cur tx6 : String)
    (hlen : 6 ≤ hash.length)
    (hcur : isValidSixHex cur = true)
    (htx : isValidSixHex tx6 = true) :
    (∀ tx, calculateHexTransaction tx
      = (calcHexFromHash (Transaction.hashHex tx)).map
          (fun cs => String.mk cs))
    ∧ calcHexFromHash hash
      = .ok ((List.range 6).map (fun i =>
          let partSize := hash.length / 6
          let start := i * partSize
          let stop := if i = 5 then hash.length
            else (i + 1) * partSize
          reduceToSingleHexDigit ((hash.drop start).take (stop - start))))
    ∧ calculateNewColor cur tx6
      = .ok (formatHex6 ((parseHexNat cur + parseHexNat tx6) % 0x1000000))
    ∧ calculateNewColor "000001" "000001" = .ok "000002"
    ∧ calculateNewColor "ffffff" "000002" = .ok "000001" := by
  refine ⟨?_, ?_, ?_, by decide, by decide⟩
  · intro tx
    rw [calculateHexTransaction]
    cases calcHexFromHash (Transaction.hashHex tx) <;> rfl
  · rw [calcHexFromHash, if_neg (by omega)]
  · rw [calculateNewColor]
    simp [hcur, htx]

set_option maxRecDepth 4000 in
/-- Witness for the color pipeline theorem at a concrete 8-character
hash and the concrete claim colors. -/
theorem color_update_pipeline_witness :
    6 ≤ ("abcdef01".data).length
    ∧ isValidSixHex "000001" = true
    ∧ isValidSixHex "000001" = true
    ∧ calculateNewColor "000001" "000001" = .ok "000002" :=
  ⟨by decide, by decide, by decide,
    (color_update_pipeline "abcdef01".data "000001" "000001"
      (by decide) (by decide) (by decide)).2.2.2.1⟩

end SelfChain
